import Mathlib

/-!
Shallow embedding of the session/streaming-execution core of the
`claude-remote` Telegram bot (Python sources under `src/bot/`), together
with theorems settling the frozen claims about its specification.

The embedding follows the Python sources:
* `claude_executor.py` — `ClaudeExecutor._parse_stream_json`, `execute`,
  `execute_streaming`;
* `formatters.py` — `ResponseFormatter.format_response`, `_split_message`,
  `_find_split_point`;
* `bot.py` — per-user `context.user_data` state, `initialize_user_data`,
  `get_or_create_session_id`, `increment_turn_count`, `handle_clear`, and the
  post-run store steps of `handle_text`;
* `callback_handlers.py` — `handle_action_callback` (approve / reject),
  `handle_clear_callback`.

Modelling conventions:
* A JSON line of the subprocess stream is either a decoded event
  (`Line.ok`), a line whose `json.loads` raises (`Line.bad`), or a
  blank line (`Line.blank`); the JSON decoder itself is external.
* Python `dict.get` on possibly-absent keys is modelled with `Option`
  fields and `Option.getD`; Python truthiness of an optional string
  (`None` and `""` are falsy) is `pyTruthy` / its negation.
* Python `str.strip` is modelled by dropping leading and trailing
  whitespace characters (the inputs in the claims use only ASCII blanks
  and newlines).
* A CPython `set` does not remember insertion order: its iteration
  order depends on the (per-process randomised) string hashes and, for
  the collision-free tables arising here, only on the member set, not on
  the order of `add` calls.  `list(tools_used)` is therefore modelled by
  a canonical insertion-order-independent enumeration of the member set
  (sorting); see `pySetToList`.
* `datetime.now().isoformat()` values are passed in as explicit `now`
  arguments; wall-clock and subprocess behaviour (exit code, emitted
  stream, timeout) are passed in as an explicit outcome value.
-/

namespace ClaudeRemote

/-- Python truthiness of an optional string: `None` and `""` are falsy. -/
def pyTruthy : Option String → Bool
  | none => false
  | some s => !s.isEmpty

/-- Model of `str.strip()` on a character list: drop leading and trailing
whitespace (the claim inputs only use ASCII blanks and newlines). -/
def pyStripChars (cs : List Char) : List Char :=
  ((cs.dropWhile Char.isWhitespace).reverse.dropWhile Char.isWhitespace).reverse

/-- Model of `str.strip()` on a string. -/
def pyStrip (s : String) : String := String.mk (pyStripChars s.toList)

/-! ## Event model of the `stream-json` output (claude_executor.py) -/

/-- One content block of an `assistant` event.  Field access in the source is
`block.get('text', '')` and `block.get('name', 'unknown')`, hence the
`Option` payloads. -/
inductive Block where
  | text (s : Option String)
  | toolUse (name : Option String)
  | other
deriving DecidableEq, Repr

/-- The `usage` sub-dict of a `result` event; `usage.get(..., 0)`. -/
structure Usage where
  input_tokens : Nat := 0
  output_tokens : Nat := 0
deriving DecidableEq, Repr

/-- A decoded stream event, carrying exactly the fields the parser reads. -/
inductive Event where
  | system (subtype : Option String) (session_id : Option String)
      (model : Option String)
  | assistant (content : List Block)
  | result (subtype : Option String) (session_id : Option String)
      (total_cost_usd : Rat) (duration_ms : Nat) (usage : Usage)
      (errors : List String)
  | otherEvent
deriving DecidableEq, Repr

/-- One line of subprocess stdout: blank (skipped before decoding), a line on
which `json.loads` raises (logged and skipped), or a decoded event. -/
inductive Line where
  | blank
  | bad (raw : String)
  | ok (e : Event)
deriving DecidableEq, Repr

/-- The `ClaudeResponse` dataclass of `claude_executor.py`. -/
structure ClaudeResponse where
  success : Bool
  output : String
  error : Option String := none
  session_id : Option String := none
  cost_usd : Rat := 0
  input_tokens : Nat := 0
  output_tokens : Nat := 0
  duration_ms : Nat := 0
  model : Option String := none
  tools_used : List String := []
  raw_events : List Event := []
deriving DecidableEq, Repr

/-- The local variables of the parsing loops of `_parse_stream_json` and
`execute_streaming`.  `toolsSeen` records the members of the Python set
`tools_used` in first-seen order (a faithful record of the `add` calls;
the set itself forgets this order). -/
structure ParseState where
  events : List Event := []
  output_parts : List String := []
  session_id : Option String := none
  cost_usd : Rat := 0
  input_tokens : Nat := 0
  output_tokens : Nat := 0
  duration_ms : Nat := 0
  model : Option String := none
  toolsSeen : List String := []
deriving DecidableEq, Repr

/-- Model of `tools_used.add(name)`: insert into the set; `toolsSeen` keeps the
members in first-seen order. -/
def addTool (l : List String) (n : String) : List String :=
  if n ∈ l then l else l ++ [n]

/-- One content block of an `assistant` event, as handled by the loop body
`for block in content: ...` (both parsing loops are identical here). -/
def stepBlock (st : ParseState) (b : Block) : ParseState :=
  match b with
  | .text s => { st with output_parts := st.output_parts ++ [s.getD ""] }
  | .toolUse name =>
      { st with toolsSeen := addTool st.toolsSeen (name.getD "unknown") }
  | .other => st

/-- One decoded event, as handled by the shared loop body of
`_parse_stream_json` (lines 176-207) and `execute_streaming`
(lines 285-327): the event is appended to `events`, then dispatched on its
`type`/`subtype`. -/
def stepEvent (st : ParseState) (e : Event) : ParseState :=
  let st := { st with events := st.events ++ [e] }
  match e with
  | .system subtype sid m =>
      if subtype = some "init" then { st with session_id := sid, model := m }
      else st
  | .assistant content => content.foldl stepBlock st
  | .result _ sid cost dur usage _ =>
      let st :=
        if pyTruthy st.session_id then st else { st with session_id := sid }
      { st with cost_usd := cost, duration_ms := dur,
                input_tokens := usage.input_tokens,
                output_tokens := usage.output_tokens }
  | .otherEvent => st

/-- One raw line: blank lines are skipped, `json.loads` failures are logged
and skipped (`continue`), decoded events are processed. -/
def stepLine (st : ParseState) (l : Line) : ParseState :=
  match l with
  | .blank => st
  | .bad _ => st
  | .ok e => stepEvent st e

/-- Run the parsing loop over a whole stdout stream. -/
def runLines (lines : List Line) : ParseState :=
  lines.foldl stepLine {}

/-- Lexicographic comparison of character lists by code point (a total
order used to enumerate set members canonically). -/
def lexLeB : List Char → List Char → Bool
  | [], _ => true
  | _ :: _, [] => false
  | a :: as, b :: bs =>
      if a.toNat < b.toNat then true
      else if b.toNat < a.toNat then false
      else lexLeB as bs

/-- Lexicographic order on strings, as a relation. -/
def strLeP (a b : String) : Prop := lexLeB a.data b.data = true

instance : DecidableRel strLeP := fun a b =>
  inferInstanceAs (Decidable (lexLeB a.data b.data = true))

/-- Model of `list(tools_used)` for the CPython set `tools_used`.  The set's
iteration order is not insertion order: it depends on the per-process
randomised string hashes and (for the collision-free tables arising here)
only on the member set.  We model the enumeration by the canonical
insertion-order-independent choice: the members in lexicographic order. -/
def pySetToList (l : List String) : List String :=
  (l.dedup).insertionSort strLeP

/-- Placeholder output used when a run succeeds with tool usage but no text
block (`"(Claude completed task with no text output)"`). -/
def placeholderOutput : String := "(Claude completed task with no text output)"

/-- Error extraction of `_parse_stream_json` for a non-zero exit code with
empty stderr (lines 135-148): scan stdout lines in reverse for a
`result`/`error_during_execution` event with a non-empty `errors` list.
The single `try` block wraps the whole scan, so the first line whose
`json.loads` raises aborts the extraction; blank lines are skipped.  The
argument is the already reversed line list. -/
def scanErrorLines : List Line → Option String
  | [] => none
  | .blank :: ls => scanErrorLines ls
  | .bad _ :: _ => none
  | .ok e :: ls =>
      match e with
      | .result subtype _ _ _ _ errors =>
          if subtype = some "error_during_execution" then
            match errors with
            | err :: _ => some err
            | [] => scanErrorLines ls
          else scanErrorLines ls
      | _ => scanErrorLines ls

/-- Model of `_parse_stream_json(result)` where `result` has exit code `rc`, stdout
split into `lines`, and stderr `stderr` (`timeoutSecs` is the executor's
configured timeout, unused on this path but part of the executor). -/
def parse_stream_json (rc : Int) (lines : List Line) (stderr : String) :
    ClaudeResponse :=
  if rc ≠ 0 then
    let errMsg :=
      if pyTruthy (some (pyStrip stderr)) then some (pyStrip stderr)
      else scanErrorLines lines.reverse
    { success := false, output := "", error := some (errMsg.getD "Unknown error") }
  else
    let st := runLines lines
    let output := pyStrip (String.join st.output_parts)
    let isSuccess := rc == 0 && (!output.isEmpty || !st.toolsSeen.isEmpty)
    let output :=
      if output.isEmpty && !st.toolsSeen.isEmpty then placeholderOutput
      else output
    { success := isSuccess, output := output,
      session_id := st.session_id, cost_usd := st.cost_usd,
      input_tokens := st.input_tokens, output_tokens := st.output_tokens,
      duration_ms := st.duration_ms, model := st.model,
      tools_used := pySetToList st.toolsSeen, raw_events := st.events }

/-- Outcome of the blocking `subprocess.run` call in `execute`: either the
process exits (exit code, stdout lines, stderr), or `TimeoutExpired` is
raised.  The exception object carries the output captured so far, which
`execute` ignores. -/
inductive RunOutcome where
  | completed (rc : Int) (lines : List Line) (stderr : String)
  | timedOut (captured : List Line)
deriving DecidableEq, Repr

/-- Model of `ClaudeExecutor.execute` (lines 59-107): run to completion and parse, or
on `TimeoutExpired` return a failure with **empty** output. -/
def execute (timeoutSecs : Nat) (o : RunOutcome) : ClaudeResponse :=
  match o with
  | .completed rc lines stderr => parse_stream_json rc lines stderr
  | .timedOut _ =>
      { success := false, output := "",
        error := some ("Command timeout after " ++ toString timeoutSecs
          ++ " seconds") }

/-- Outcome of the asynchronous streaming run: either all stdout lines are
consumed and the process exits with `rc` and (lazily read) stderr, or the
wall-clock timeout fires after the loop consumed the prefix `consumed`. -/
inductive StreamOutcome where
  | completed (lines : List Line) (rc : Int) (stderr : String)
  | timedOut (consumed : List Line)
deriving DecidableEq, Repr

/-- Model of `ClaudeExecutor.execute_streaming` (lines 235-370).  The `on_progress`
callback only edits a chat message and does not affect the returned
response, so it is not part of the state. -/
def execute_streaming (timeoutSecs : Nat) (o : StreamOutcome) :
    ClaudeResponse :=
  match o with
  | .timedOut consumed =>
      let st := runLines consumed
      { success := false,
        output := pyStrip (String.join st.output_parts),
        error := some ("Command timeout after " ++ toString timeoutSecs
          ++ " seconds") }
  | .completed lines rc stderr =>
      let st := runLines lines
      let output := pyStrip (String.join st.output_parts)
      let isSuccess := rc == 0 && (!output.isEmpty || !st.toolsSeen.isEmpty)
      let output :=
        if output.isEmpty && !st.toolsSeen.isEmpty then placeholderOutput
        else output
      if rc ≠ 0 && output.isEmpty then
        { success := false, output := "",
          error := some (if (pyStrip stderr).isEmpty then "Unknown error"
            else pyStrip stderr) }
      else
        { success := isSuccess, output := output,
          session_id := st.session_id, cost_usd := st.cost_usd,
          input_tokens := st.input_tokens, output_tokens := st.output_tokens,
          duration_ms := st.duration_ms, model := st.model,
          tools_used := pySetToList st.toolsSeen, raw_events := st.events }

/-! ### Specification-level views of a stream (defined by plain recursion,
independently of the parser's fold) -/

/-- Texts of the `text` blocks of one `assistant` content list, in order. -/
def blockTexts : List Block → List String
  | [] => []
  | .text s :: bs => s.getD "" :: blockTexts bs
  | _ :: bs => blockTexts bs

/-- Tool names of the `tool_use` blocks of one content list, in order,
with the `'unknown'` default of `block.get('name', 'unknown')`. -/
def blockTools : List Block → List String
  | [] => []
  | .toolUse n :: bs => n.getD "unknown" :: blockTools bs
  | _ :: bs => blockTools bs

/-- All assistant text-block texts of a stream, in arrival order. -/
def lineTexts : List Line → List String
  | [] => []
  | .ok (.assistant content) :: ls => blockTexts content ++ lineTexts ls
  | _ :: ls => lineTexts ls

/-- All tool-use names of a stream, in arrival order (with repeats). -/
def lineTools : List Line → List String
  | [] => []
  | .ok (.assistant content) :: ls => blockTools content ++ lineTools ls
  | _ :: ls => lineTools ls

/-- Distinct tool names of a stream in the order each was first seen. -/
def firstSeenTools (lines : List Line) : List String :=
  (lineTools lines).foldl addTool []

/-! ## Response formatter (formatters.py) -/

/-- Starts of the non-overlapping matches of the literal pattern `pat` in
`cs`, scanning left to right and advancing past each match — the match
starts produced by `re.finditer` on a literal pattern.  `fuel`-indexed;
every call site supplies enough fuel for the scan to finish. -/
def patStartsAux (pat : List Char) : Nat → List Char → Nat → List Nat
  | 0, _, _ => []
  | fuel + 1, cs, i =>
      match cs with
      | [] => []
      | c :: rest =>
          if pat.isPrefixOf (c :: rest) && !pat.isEmpty then
            i :: patStartsAux pat fuel ((c :: rest).drop pat.length)
              (i + pat.length)
          else
            patStartsAux pat fuel rest (i + 1)

/-- All `re.finditer` match starts of a literal pattern. -/
def patStarts (pat cs : List Char) : List Nat :=
  patStartsAux pat (cs.length + 1) cs 0

/-- Model of `pat in s` for a literal pattern. -/
def containsPat (pat cs : List Char) : Bool :=
  !(patStarts pat cs).isEmpty

/-- The characters of a triple-backtick fence. -/
def fenceChars : List Char := "```".toList

/-- Spans `(start, stop)` of the matches of the non-greedy fenced-block
regex (three backticks, a shortest body, three backticks) found by
`re.finditer`, scanning left to right past each complete match. -/
def fencePairsAux : Nat → List Char → Nat → List (Nat × Nat)
  | 0, _, _ => []
  | fuel + 1, cs, base =>
      match (patStarts fenceChars cs).head? with
      | none => []
      | some j =>
          let afterOpen := cs.drop (j + 3)
          match (patStarts fenceChars afterOpen).head? with
          | none => []
          | some k =>
              let stop := base + j + 3 + k + 3
              (base + j, stop) ::
                fencePairsAux fuel (afterOpen.drop (k + 3)) stop

/-- All fenced-block match spans in `cs`. -/
def fencePairs (cs : List Char) : List (Nat × Nat) :=
  fencePairsAux (cs.length + 1) cs 0

/-- Number of (non-overlapping) triple-backtick markers in a string. -/
def fenceCount (s : String) : Nat :=
  (patStarts fenceChars s.toList).length

/-- The `FormattedMessage` dataclass of `formatters.py`. -/
structure FormattedMessage where
  text : String
  parse_mode : String := "Markdown"
  has_code : Bool := false
deriving DecidableEq, Repr

/-- Build a `FormattedMessage` the way `_split_message` does
(`has_code` is the fence-containment test on the chunk). -/
def mkChunkMessage (cs : List Char) : FormattedMessage :=
  { text := String.mk cs, has_code := containsPat fenceChars cs }

/-- Model of `ResponseFormatter._find_split_point` (lines 111-155): prefer the end of
the last complete fenced block when it falls within `max_length`, then the
last paragraph, line, sentence and word boundary of the first `max_length`
characters, else a hard cut at `max_length`. -/
def find_split_point (maxLen : Nat) (cs : List Char) : Nat :=
  let maxSearch := min maxLen cs.length
  let window := cs.take (maxSearch + 500)
  let blocks := fencePairs window
  let viaFence : Option Nat :=
    match blocks.getLast? with
    | some (_, stop) => if stop ≤ maxLen then some stop else none
    | none => none
  match viaFence with
  | some stop => stop
  | none =>
      let search := cs.take maxSearch
      match (patStarts "\n\n".toList search).getLast? with
      | some p => p + 2
      | none =>
          match (patStarts "\n".toList search).getLast? with
          | some p => p + 1
          | none =>
              match (patStarts ". ".toList search).getLast? with
              | some p => p + 2
              | none =>
                  match (patStarts " ".toList search).getLast? with
                  | some p => p + 1
                  | none => maxLen

/-- The continuation markers of `_split_message`. -/
def contMarkerEnd : List Char := "\n\n_(...continued)_".toList

/-- Marker prepended to every non-first unit. -/
def contMarkerStart : List Char := "_(...continued)_\n\n".toList

/-- The `while len(remaining) > max_length` loop of
`ResponseFormatter._split_message` (lines 69-109), including the final-chunk
handling after the loop.  `fuel`-indexed (`none` = fuel exhausted; the
claim-level inputs terminate within the supplied fuel). -/
def splitLoop (maxLen : Nat) :
    Nat → List Char → List FormattedMessage → Option (List FormattedMessage)
  | 0, _, _ => none
  | fuel + 1, remaining, msgs =>
      if remaining.length > maxLen then
        let sp := find_split_point maxLen remaining
        let chunk := pyStripChars (remaining.take sp)
        let rem := pyStripChars (remaining.drop sp)
        let chunk := if !rem.isEmpty then chunk ++ contMarkerEnd else chunk
        splitLoop maxLen fuel rem (msgs ++ [mkChunkMessage chunk])
      else
        if !remaining.isEmpty then
          let rem :=
            if !msgs.isEmpty then contMarkerStart ++ remaining else remaining
          some (msgs ++ [mkChunkMessage rem])
        else some msgs

/-- Model of `ResponseFormatter._split_message`. -/
def split_message (maxLen : Nat) (cs : List Char) :
    Option (List FormattedMessage) :=
  splitLoop maxLen (cs.length + 1) cs []

/-- The default header of `format_response`. -/
def headerText : String := "🤖 **Claude:**\n\n"

/-- Model of `ResponseFormatter.format_response` (lines 30-67) with the default
header text; `maxLen` is the formatter's `max_length`. -/
def format_response (maxLen : Nat) (addHeader : Bool) (text : String) :
    Option (List FormattedMessage) :=
  if text.isEmpty || (pyStrip text).isEmpty then
    some [{ text := "(Empty response)", has_code := false }]
  else
    let text := if addHeader then headerText ++ text else text
    if text.length ≤ maxLen then
      some [{ text := text, has_code := containsPat fenceChars text.toList }]
    else split_message maxLen text.toList

/-! ## Per-user state and approval workflow (bot.py, callback_handlers.py) -/

/-- Change state constants shared by `bot.py` and `callback_handlers.py`. -/
def CHANGE_STATE_PENDING : String := "pending"

/-- State constant `'approved'`. -/
def CHANGE_STATE_APPROVED : String := "approved"

/-- State constant `'rejected'`. -/
def CHANGE_STATE_REJECTED : String := "rejected"

/-- The `preferences` sub-dict of `USER_DATA_SCHEMA`. -/
structure Prefs where
  auto_compact : Bool := true
  show_transcription : Bool := true
  max_turns_before_compact : Nat := 20
deriving DecidableEq, Repr

/-- One entry of `approval_history` (the dict literal of
`callback_handlers.py` lines 106-111 / 192-197 sets all four keys). -/
structure HistoryEntry where
  change_id : String
  state : String
  timestamp : String
  prompt : String
deriving DecidableEq, Repr

/-- The `pending_change` dict (created in `bot.py` lines 892-900, read via
`.get` in the callback handlers, hence `Option` fields; `session_id` holds
the — itself optional — stored session id). -/
structure PendingChange where
  id : Option String := none
  state : Option String := none
  prompt : Option String := none
  timestamp : Option String := none
  output : Option String := none
  session_id : Option (Option String) := none
  tools_used : Option (List String) := none
  approved_at : Option String := none
  rejected_at : Option String := none
deriving DecidableEq, Repr

/-- The per-user `context.user_data` dict.  `claude_session_id` is doubly
optional: the outer layer is key presence (`initialize_user_data` installs
the schema defaults exactly when this key is absent), the inner layer is
the stored value (`None` = no session).  For the remaining keys, absence
is observationally the `.get` default, so plain values suffice;
`approval_history = none` models the absent key (the handlers test
membership before appending). -/
structure UserData where
  claude_session_id : Option (Option String) := none
  turn_count : Nat := 0
  last_active : Option String := none
  workspace_path : String := "/workspace"
  last_transcription : Option String := none
  github_repo : Option String := none
  repo_path : Option String := none
  preferences : Prefs := {}
  last_prompt : Option String := none
  pending_change : Option PendingChange := none
  approval_history : Option (List HistoryEntry) := none
deriving DecidableEq, Repr

/-- A brand-new user: an empty `context.user_data` dict. -/
def emptyUserData : UserData := {}

/-- Result of `git_ops.get_status()` as consumed by the handlers (only
`is_clean` is read); `none` models the `None` return. -/
structure GitStatus where
  is_clean : Bool
deriving DecidableEq, Repr

/-- Return values of the git collaborator calls a single
`handle_action_callback` invocation can make (each is called at most
once per invocation). -/
structure GitEnv where
  is_repo : Bool
  status : Option GitStatus
  add_ok : Bool
  add_msg : String
  commit_ok : Bool
  commit_result : String
deriving DecidableEq, Repr

/-- The user-visible outcome message chosen by `handle_action_callback`. -/
inductive Reply where
  | approvedCommitted (hash : String)
  | approvedCommitFailed (err : String)
  | approvedStagingFailed (msg : String)
  | approvedNoGitChanges
  | approvedNotRepo
  | rejectedUncommitted
  | rejectedClean
  | noPendingChanges
  | retryPrompt (text : String)
  | retryNothing
  | dismissed
  | backToMenu
  | unknownAction (a : String)
deriving DecidableEq, Repr

/-- Side effects of one `handle_action_callback` invocation: the messages of
the git commits actually created, and the reply shown to the user. -/
structure ActionEffects where
  commits : List String
  reply : Reply
deriving DecidableEq, Repr

/-- Python `history[-20:]`: the last `n` elements. -/
def pyLastN (n : Nat) (l : List HistoryEntry) : List HistoryEntry :=
  l.drop (l.length - n)

/-- Append a decision entry and trim to the most recent 20 (lines 102-115 and
188-201 of `callback_handlers.py`). -/
def appendHistory (h : Option (List HistoryEntry)) (e : HistoryEntry) :
    List HistoryEntry :=
  let h := h.getD [] ++ [e]
  if h.length > 20 then pyLastN 20 h else h

/-- Model of `handle_action_callback` (callback_handlers.py lines 81-280) as a
state transformer: `now` stands for the `datetime.now().isoformat()` values
taken during the invocation, `g` for the return values of the git
collaborator. -/
def handle_action (action : String) (ud : UserData) (g : GitEnv)
    (now : String) : UserData × ActionEffects :=
  if action = "approve" then
    match ud.pending_change with
    | some pc =>
        if pc.state = some CHANGE_STATE_PENDING then
          let hist := appendHistory ud.approval_history
            { change_id := pc.id.getD "unknown",
              state := CHANGE_STATE_APPROVED,
              timestamp := now,
              prompt := (pc.prompt.getD "").take 100 }
          let gitOutcome : List String × Reply :=
            if g.is_repo then
              match g.status with
              | some status =>
                  if !status.is_clean then
                    if g.add_ok then
                      let commitMsg := "Apply changes from Claude\n\nPrompt: "
                        ++ (pc.prompt.getD "Unknown").take 100
                      if g.commit_ok then
                        ([commitMsg], .approvedCommitted g.commit_result)
                      else ([], .approvedCommitFailed g.commit_result)
                    else ([], .approvedStagingFailed g.add_msg)
                  else ([], .approvedNoGitChanges)
              | none => ([], .approvedNoGitChanges)
            else ([], .approvedNotRepo)
          ({ ud with approval_history := some hist, pending_change := none },
           { commits := gitOutcome.1, reply := gitOutcome.2 })
        else (ud, { commits := [], reply := .noPendingChanges })
    | none => (ud, { commits := [], reply := .noPendingChanges })
  else if action = "reject" then
    match ud.pending_change with
    | some pc =>
        if pc.state = some CHANGE_STATE_PENDING then
          let hist := appendHistory ud.approval_history
            { change_id := pc.id.getD "unknown",
              state := CHANGE_STATE_REJECTED,
              timestamp := now,
              prompt := (pc.prompt.getD "").take 100 }
          let reply : Reply :=
            if g.is_repo then
              match g.status with
              | some status =>
                  if !status.is_clean then .rejectedUncommitted
                  else .rejectedClean
              | none => .rejectedClean
            else .rejectedClean
          ({ ud with approval_history := some hist, pending_change := none },
           { commits := [], reply := reply })
        else (ud, { commits := [], reply := .noPendingChanges })
    | none => (ud, { commits := [], reply := .noPendingChanges })
  else if action = "retry" then
    let retryText :=
      if pyTruthy ud.last_transcription then ud.last_transcription
      else ud.last_prompt
    if pyTruthy retryText then (ud, { commits := [], reply := .retryPrompt (retryText.getD "") })
    else (ud, { commits := [], reply := .retryNothing })
  else if action = "dismiss" then (ud, { commits := [], reply := .dismissed })
  else if action = "back" then (ud, { commits := [], reply := .backToMenu })
  else (ud, { commits := [], reply := .unknownAction action })

/-- Shared clearing assignment of `handle_clear` (bot.py lines 560-563) and
`handle_clear_callback` (callback_handlers.py lines 583-586): the three keys
are set, everything else is untouched. -/
def clearSession (ud : UserData) : UserData :=
  { ud with claude_session_id := some none, turn_count := 0,
            pending_change := none }

/-- Possible outcomes of the `/clear` command. -/
inductive ClearReply where
  | unauthorized
  | confirmRequested
  | cleared
deriving DecidableEq, Repr

/-- Model of `handle_clear` (bot.py lines 526-575): unauthorized users and a
pending change in state `'pending'` leave the state untouched; otherwise
the session data is cleared (approval history kept). -/
def handle_clear (authorized : Bool) (ud : UserData) : UserData × ClearReply :=
  if !authorized then (ud, .unauthorized)
  else
    match ud.pending_change with
    | some pc =>
        if pc.state = some CHANGE_STATE_PENDING then (ud, .confirmRequested)
        else (clearSession ud, .cleared)
    | none => (clearSession ud, .cleared)

/-- Model of `handle_clear_callback` (callback_handlers.py lines 572-604):
only the `'confirm'` action mutates the state. -/
def handle_clear_callback (action : String) (ud : UserData) : UserData :=
  if action = "confirm" then clearSession ud else ud

/-- Model of `initialize_user_data` (bot.py lines 92-98): install the schema
defaults exactly when the `'claude_session_id'` key is absent, then stamp
`last_active`.  The schema covers neither `pending_change`,
`approval_history` nor `last_prompt`, which survive. -/
def initialize_user_data (now : String) (ud : UserData) : UserData :=
  let ud :=
    if ud.claude_session_id.isNone then
      { ud with claude_session_id := some none, turn_count := 0,
                last_active := none, workspace_path := "/workspace",
                last_transcription := none, github_repo := none,
                repo_path := none, preferences := {} }
    else ud
  { ud with last_active := some now }

/-- Model of `get_or_create_session_id` (bot.py lines 101-117): initialize,
then return `user_data.get('claude_session_id')` unchanged. -/
def get_or_create_session_id (now : String) (ud : UserData) :
    UserData × Option String :=
  let ud := initialize_user_data now ud
  (ud, ud.claude_session_id.getD none)

/-- Model of `increment_turn_count` (bot.py lines 120-124). -/
def increment_turn_count (now : String) (ud : UserData) : UserData × Nat :=
  let ud := initialize_user_data now ud
  let t := ud.turn_count + 1
  ({ ud with turn_count := t }, t)

/-- Session-id write-back of `handle_text` (bot.py lines 885-887): the
executor-assigned id is stored whenever the response carries a truthy id,
before and regardless of the `success` check. -/
def store_session_after_run (resp : ClaudeResponse) (ud : UserData) :
    UserData :=
  if pyTruthy resp.session_id then
    { ud with claude_session_id := some resp.session_id }
  else ud

/-- Pending-change creation of `handle_text` (bot.py lines 890-900),
performed only when `claude_response.success` holds; the dict literal sets
every key, with state `'pending'`. -/
def propose_pending_change (changeId promptText now : String)
    (outputText : String) (sessionId : Option String)
    (toolsUsed : List String) (ud : UserData) : UserData :=
  let pc : PendingChange :=
    { id := some changeId, state := some CHANGE_STATE_PENDING,
      prompt := some promptText, timestamp := some now,
      output := some outputText, session_id := some sessionId,
      tools_used := some toolsUsed }
  { ud with pending_change := some pc }

/-- Ingredients of one propose-then-decide round: the proposal data of
`handle_text` followed by one approve/reject callback. -/
structure DecisionStep where
  change_id : String
  promptText : String
  proposeNow : String
  outputText : String
  sessionId : Option String
  toolsUsed : List String
  action : String
  git : GitEnv
  decideNow : String
deriving DecidableEq, Repr

/-- Run one propose-then-decide round. -/
def applyDecision (ud : UserData) (s : DecisionStep) : UserData :=
  let ud := propose_pending_change s.change_id s.promptText s.proposeNow
    s.outputText s.sessionId s.toolsUsed ud
  (handle_action s.action ud s.git s.decideNow).1

/-- The history entry that deciding `s` appends. -/
def entryOfStep (s : DecisionStep) : HistoryEntry :=
  { change_id := s.change_id,
    state := if s.action = "approve" then CHANGE_STATE_APPROVED
      else CHANGE_STATE_REJECTED,
    timestamp := s.decideNow,
    prompt := s.promptText.take 100 }

/-- Lines whose event is a `system`/`init` event. -/
def isInitLine : Line → Bool
  | .ok (.system subtype _ _) => subtype = some "init"
  | _ => false

/-- Specification of the session-clear frame effect: the three session keys
are reset and every other stored field is preserved. -/
def ClearSpec (pre post : UserData) : Prop :=
  post.claude_session_id = some none ∧ post.turn_count = 0 ∧
  post.pending_change = none ∧
  post.last_active = pre.last_active ∧
  post.workspace_path = pre.workspace_path ∧
  post.last_transcription = pre.last_transcription ∧
  post.github_repo = pre.github_repo ∧
  post.repo_path = pre.repo_path ∧
  post.preferences = pre.preferences ∧
  post.last_prompt = pre.last_prompt ∧
  post.approval_history = pre.approval_history

/-- A git environment with no repository (concrete test data). -/
def exampleGitEnv : GitEnv :=
  { is_repo := false, status := none, add_ok := false, add_msg := "",
    commit_ok := false, commit_result := "" }

/-- A pending change awaiting decision (concrete test data). -/
def examplePending2 : PendingChange :=
  { id := some "c2", state := some CHANGE_STATE_PENDING,
    prompt := some "add tests" }

/-- A user holding `examplePending2` (concrete test data). -/
def exampleUser2 : UserData :=
  { emptyUserData with pending_change := some examplePending2 }

/-- A user with a stored session id and four turns (concrete test data). -/
def exampleTurnUser : UserData :=
  { emptyUserData with
    claude_session_id := some (some "sid-w")
    turn_count := 4 }

/-- One approve round (concrete test data). -/
def exampleStep9 : DecisionStep :=
  { change_id := "c9", promptText := "p9", proposeNow := "n0",
    outputText := "out", sessionId := none, toolsUsed := [],
    action := "approve", git := exampleGitEnv, decideNow := "d0" }

/-- A past history entry (concrete test data). -/
def exampleEntry10 : HistoryEntry :=
  { change_id := "h", state := "approved", timestamp := "t", prompt := "p" }

/-- A fully populated user context with no pending change (concrete test
data). -/
def exampleUser10 : UserData :=
  { claude_session_id := some (some "sid-10"), turn_count := 7,
    last_active := some "la", workspace_path := "/w",
    last_transcription := some "tr", github_repo := some "o/r",
    repo_path := some "/repo", last_prompt := some "lp",
    pending_change := none, approval_history := some [exampleEntry10] }

/-- The same populated context holding a pending change (concrete test
data for the clear-confirm callback's operative case). -/
def exampleUser10b : UserData :=
  { exampleUser10 with pending_change := some examplePending2 }

/-- Input exhibiting the fence-splitting defect: two paragraphs followed by
one fenced block of 14 characters whose interior contains a blank line; the
whole text is 34 characters long. -/
def fenceSplitInput : String :=
  "aaaaaaaa\n\nbbbbbbbb\n\n```\nxx\n\nyy\n```"

/-! ## Fold characterisations of the stream parser -/

theorem foldl_stepBlock_output (bs : List Block) :
    ∀ st : ParseState,
      (bs.foldl stepBlock st).output_parts = st.output_parts ++ blockTexts bs := by
  induction bs with
  | nil => intro st; simp [blockTexts]
  | cons b bs ih =>
      intro st
      cases b with
      | text s => simp [stepBlock, blockTexts, ih]
      | toolUse n => simp [stepBlock, blockTexts, ih]
      | other => simp [stepBlock, blockTexts, ih]

theorem foldl_stepBlock_tools (bs : List Block) :
    ∀ st : ParseState,
      (bs.foldl stepBlock st).toolsSeen =
        (blockTools bs).foldl addTool st.toolsSeen := by
  induction bs with
  | nil => intro st; simp [blockTools]
  | cons b bs ih =>
      intro st
      cases b with
      | text s => simp [stepBlock, blockTools, ih]
      | toolUse n => simp [stepBlock, blockTools, ih]
      | other => simp [stepBlock, blockTools, ih]

theorem foldl_stepBlock_session_model (bs : List Block) :
    ∀ st : ParseState,
      (bs.foldl stepBlock st).session_id = st.session_id ∧
        (bs.foldl stepBlock st).model = st.model := by
  induction bs with
  | nil => intro st; simp
  | cons b bs ih =>
      intro st
      cases b with
      | text s => simpa [stepBlock] using ih _
      | toolUse n => simpa [stepBlock] using ih _
      | other => simpa [stepBlock] using ih _

theorem foldl_stepLine_output (lines : List Line) :
    ∀ st : ParseState,
      (lines.foldl stepLine st).output_parts =
        st.output_parts ++ lineTexts lines := by
  induction lines with
  | nil => intro st; simp [lineTexts]
  | cons l ls ih =>
      intro st
      cases l with
      | blank => simp [stepLine, lineTexts, ih]
      | bad raw => simp [stepLine, lineTexts, ih]
      | ok e =>
          cases e with
          | system subtype sid m =>
              by_cases h : subtype = some "init" <;>
                simp [stepLine, stepEvent, lineTexts, ih, h]
          | assistant content =>
              simp [stepLine, stepEvent, lineTexts, ih, foldl_stepBlock_output]
          | result subtype sid cost dur usage errs =>
              by_cases h : pyTruthy st.session_id <;>
                simp [stepLine, stepEvent, lineTexts, ih, h]
          | otherEvent => simp [stepLine, stepEvent, lineTexts, ih]

theorem foldl_stepLine_tools (lines : List Line) :
    ∀ st : ParseState,
      (lines.foldl stepLine st).toolsSeen =
        (lineTools lines).foldl addTool st.toolsSeen := by
  induction lines with
  | nil => intro st; simp [lineTools]
  | cons l ls ih =>
      intro st
      cases l with
      | blank => simp [stepLine, lineTools, ih]
      | bad raw => simp [stepLine, lineTools, ih]
      | ok e =>
          cases e with
          | system subtype sid m =>
              by_cases h : subtype = some "init" <;>
                simp [stepLine, stepEvent, lineTools, ih, h]
          | assistant content =>
              simp [stepLine, stepEvent, lineTools, ih, foldl_stepBlock_tools]
          | result subtype sid cost dur usage errs =>
              by_cases h : pyTruthy st.session_id <;>
                simp [stepLine, stepEvent, lineTools, ih, h]
          | otherEvent => simp [stepLine, stepEvent, lineTools, ih]

theorem foldl_stepLine_no_init (lines : List Line) :
    ∀ st : ParseState, lines.all (fun l => !isInitLine l) →
      (lines.foldl stepLine st).model = st.model ∧
        (pyTruthy st.session_id = true →
          (lines.foldl stepLine st).session_id = st.session_id) := by
  induction lines with
  | nil => intro st _; simp
  | cons l ls ih =>
      intro st hall
      have hall' : (!isInitLine l) = true ∧
          ls.all (fun l => !isInitLine l) = true := by
        simpa [List.all_cons, Bool.and_eq_true] using hall
      have hl : isInitLine l = false := by simpa using hall'.1
      have hls : ls.all (fun l => !isInitLine l) := hall'.2
      cases l with
      | blank => simpa [stepLine] using ih st hls
      | bad raw => simpa [stepLine] using ih st hls
      | ok e =>
          cases e with
          | system subtype sid m =>
              have hsub : ¬ subtype = some "init" := by
                simpa [isInitLine] using hl
              simpa [stepLine, stepEvent, hsub] using
                ih { st with events := st.events ++ [.system subtype sid m] } hls
          | assistant content =>
              have hblk := foldl_stepBlock_session_model content
                { st with events := st.events ++ [.assistant content] }
              have hrec := ih (content.foldl stepBlock
                { st with events := st.events ++ [.assistant content] }) hls
              constructor
              · simpa [stepLine, stepEvent, hblk.2] using hrec.1
              · intro htr
                have hses := hblk.1
                have : pyTruthy (content.foldl stepBlock
                    { st with events := st.events ++ [.assistant content] }).session_id = true := by
                  simpa [hses] using htr
                simpa [stepLine, stepEvent, hses] using hrec.2 this
          | result subtype sid cost dur usage errs =>
              constructor
              · by_cases h : pyTruthy st.session_id <;>
                  simpa [stepLine, stepEvent, h] using
                    (ih _ hls).1
              · intro htr
                simpa [stepLine, stepEvent, htr] using (ih _ hls).2 (by simpa using htr)
          | otherEvent =>
              simpa [stepLine, stepEvent] using ih _ hls

/-- Growing a tool set never empties it. -/
theorem foldl_addTool_ne_nil (ts : List String) :
    ∀ acc : List String, acc ≠ [] → ts.foldl addTool acc ≠ [] := by
  induction ts with
  | nil => intro acc h; simpa using h
  | cons t ts ih =>
      intro acc h
      apply ih
      by_cases hm : t ∈ acc
      · simpa [addTool, hm] using h
      · simp [addTool, hm]

/-- The accumulated tool set is empty exactly when no tool was named. -/
theorem foldl_addTool_nil_iff (ts : List String) :
    ts.foldl addTool [] = [] ↔ ts = [] := by
  cases ts with
  | nil => simp
  | cons t ts =>
      simp only [List.foldl_cons]
      have h1 : addTool [] t = [t] := by simp [addTool]
      rw [h1]
      have h2 := foldl_addTool_ne_nil ts [t] (by simp)
      simp [h2]

theorem lexLeB_cons_iff (a b : Char) (as bs : List Char) :
    lexLeB (a :: as) (b :: bs) = true ↔
      a.toNat < b.toNat ∨ (a.toNat = b.toNat ∧ lexLeB as bs = true) := by
  simp only [lexLeB]
  by_cases x1 : a.toNat < b.toNat
  · simp [x1]
  · by_cases x2 : b.toNat < a.toNat
    · have hne : ¬ a.toNat = b.toNat := by omega
      simp [x1, x2, hne]
    · have heq : a.toNat = b.toNat := by omega
      simp [x1, x2, heq]

theorem lexLeB_total (as : List Char) :
    ∀ bs, lexLeB as bs = true ∨ lexLeB bs as = true := by
  induction as with
  | nil => intro bs; left; rfl
  | cons a as ih =>
      intro bs
      cases bs with
      | nil => right; rfl
      | cons b bs =>
          rcases Nat.lt_trichotomy a.toNat b.toNat with h | h | h
          · left; rw [lexLeB_cons_iff]; exact .inl h
          · rcases ih bs with hr | hr
            · left; rw [lexLeB_cons_iff]; exact .inr ⟨h, hr⟩
            · right; rw [lexLeB_cons_iff]; exact .inr ⟨h.symm, hr⟩
          · right; rw [lexLeB_cons_iff]; exact .inl h

theorem lexLeB_trans (as : List Char) :
    ∀ bs cs, lexLeB as bs = true → lexLeB bs cs = true →
      lexLeB as cs = true := by
  induction as with
  | nil => intro bs cs _ _; rfl
  | cons a as ih =>
      intro bs cs h1 h2
      cases bs with
      | nil => simp [lexLeB] at h1
      | cons b bs =>
          cases cs with
          | nil => simp [lexLeB] at h2
          | cons c cs =>
              rw [lexLeB_cons_iff] at h1 h2 ⊢
              rcases h1 with h1 | ⟨h1e, h1r⟩
              · rcases h2 with h2 | ⟨h2e, _⟩
                · exact .inl (by omega)
                · exact .inl (by omega)
              · rcases h2 with h2 | ⟨h2e, h2r⟩
                · exact .inl (by omega)
                · exact .inr ⟨by omega, ih bs cs h1r h2r⟩

theorem string_data_eq {a b : String} (h : a.data = b.data) : a = b := by
  cases a
  cases b
  simp only at h
  rw [h]

theorem lexLeB_antisymm (as : List Char) :
    ∀ bs, lexLeB as bs = true → lexLeB bs as = true → as = bs := by
  induction as with
  | nil =>
      intro bs _ h2
      cases bs with
      | nil => rfl
      | cons b bs => simp [lexLeB] at h2
  | cons a as ih =>
      intro bs h1 h2
      cases bs with
      | nil => simp [lexLeB] at h1
      | cons b bs =>
          rw [lexLeB_cons_iff] at h1 h2
          have heq : a.toNat = b.toNat := by
            rcases h1 with h1 | ⟨h1e, _⟩ <;> rcases h2 with h2 | ⟨h2e, _⟩ <;>
              omega
          have hrec : as = bs := by
            rcases h1 with h1 | ⟨_, h1r⟩
            · omega
            · rcases h2 with h2 | ⟨_, h2r⟩
              · omega
              · exact ih bs h1r h2r
          have hc : a = b := by
            apply Char.ext
            apply UInt32.ext
            exact heq
          rw [hc, hrec]

instance : IsTotal String strLeP :=
  ⟨fun a b => lexLeB_total a.data b.data⟩

instance : IsTrans String strLeP :=
  ⟨fun a b c => lexLeB_trans a.data b.data c.data⟩

instance : IsAntisymm String strLeP :=
  ⟨fun a b h1 h2 => string_data_eq (lexLeB_antisymm a.data b.data h1 h2)⟩

/-- Set enumeration has the same members as the `add` history. -/
theorem pySetToList_mem (l : List String) (n : String) :
    n ∈ pySetToList l ↔ n ∈ l := by
  unfold pySetToList
  rw [(List.perm_insertionSort _ _).mem_iff, List.mem_dedup]

/-- Set enumeration never repeats a member. -/
theorem pySetToList_nodup (l : List String) : (pySetToList l).Nodup := by
  unfold pySetToList
  exact ((List.perm_insertionSort _ _).nodup_iff).mpr l.nodup_dedup

/-- Set enumeration depends only on the member set, not on the order in
which members were added — the CPython-set property that refutes the
first-seen-order reading. -/
theorem pySetToList_perm_invariant (l l' : List String) (h : l.Perm l') :
    pySetToList l = pySetToList l' := by
  unfold pySetToList
  refine List.eq_of_perm_of_sorted ?_ (List.sorted_insertionSort _ _)
    (List.sorted_insertionSort _ _)
  exact ((List.perm_insertionSort _ _).trans h.dedup).trans
    (List.perm_insertionSort _ _).symm

/-! ## Claim theorems -/

/-- C1: for every completed run of `execute` or `execute_streaming` whose
subprocess has exited, the returned result has `success = true` if and only
if the exit code was zero and (the aggregated stripped output text is
non-empty or at least one `tool_use` block was seen in the stream); a clean
exit with empty output and no tool invocation yields `success = false`. -/
theorem string_not_isEmpty_iff (s : String) : (!s.isEmpty) = true ↔ s ≠ "" := by
  rw [ne_eq, ← String.isEmpty_iff]
  cases hs : s.isEmpty <;> simp [hs]

theorem list_not_isEmpty_iff {α : Type _} (l : List α) :
    (!l.isEmpty) = true ↔ l ≠ [] := by
  cases l <;> simp

theorem string_isEmpty_false_iff (s : String) : s.isEmpty = false ↔ s ≠ "" := by
  rw [ne_eq, ← String.isEmpty_iff]
  cases hs : s.isEmpty <;> simp [hs]

theorem claim1_success_iff (timeoutSecs : Nat) (rc : Int) (lines : List Line)
    (stderr : String) :
    ((execute timeoutSecs (.completed rc lines stderr)).success = true ↔
      rc = 0 ∧ (pyStrip (String.join (lineTexts lines)) ≠ "" ∨
        lineTools lines ≠ [])) ∧
    ((execute_streaming timeoutSecs (.completed lines rc stderr)).success = true
      ↔ rc = 0 ∧ (pyStrip (String.join (lineTexts lines)) ≠ "" ∨
        lineTools lines ≠ [])) := by
  have hout : (runLines lines).output_parts = lineTexts lines := by
    simpa using foldl_stepLine_output lines {}
  have hten : ((runLines lines).toolsSeen = []) ↔ lineTools lines = [] := by
    have htools := foldl_stepLine_tools lines {}
    simp only [runLines] at htools ⊢
    rw [htools]
    simpa using foldl_addTool_nil_iff (lineTools lines)
  have hten' : ((runLines lines).toolsSeen ≠ []) ↔ lineTools lines ≠ [] :=
    not_congr hten
  by_cases hrc : rc = 0
  · subst hrc
    constructor
    · simp [execute, parse_stream_json, hout, string_not_isEmpty_iff,
        string_isEmpty_false_iff, list_not_isEmpty_iff, hten']
    · simp [execute_streaming, hout, string_not_isEmpty_iff,
        string_isEmpty_false_iff, list_not_isEmpty_iff, hten']
  · constructor
    · simp [execute, parse_stream_json, hrc]
    · simp only [execute_streaming]
      split_ifs with h <;> simp [hrc]

/-- C3 (counterexample): when the non-streaming `execute` times out after the
subprocess emitted three text-bearing assistant events, its output is the
empty string, not the concatenation of the three texts — the accumulated
text is discarded, contrary to the claim. -/
theorem claim3_counterexample :
    (execute 3600 (.timedOut
      [.ok (.assistant [.text (some "t1")]),
       .ok (.assistant [.text (some "t2")]),
       .ok (.assistant [.text (some "t3")])])).output = "" ∧
    ("" : String) ≠ "t1" ++ "t2" ++ "t3" := by
  constructor
  · rfl
  · decide

/-- C3 (amended): on timeout the non-streaming `execute` returns
`success = false` and a timeout error but always an **empty** output, even
when text-bearing assistant events were emitted before the cutoff; only the
streaming `execute_streaming` preserves the stripped concatenation of the
text accumulated before the cutoff, with `success = false` and the same
timeout error. -/
theorem claim3_timeout_behaviour (timeoutSecs : Nat)
    (captured consumed : List Line) :
    ((execute timeoutSecs (.timedOut captured)).success = false ∧
     (execute timeoutSecs (.timedOut captured)).output = "" ∧
     (execute timeoutSecs (.timedOut captured)).error =
       some ("Command timeout after " ++ toString timeoutSecs ++ " seconds")) ∧
    ((execute_streaming timeoutSecs (.timedOut consumed)).success = false ∧
     (execute_streaming timeoutSecs (.timedOut consumed)).output =
       pyStrip (String.join (lineTexts consumed)) ∧
     (execute_streaming timeoutSecs (.timedOut consumed)).error =
       some ("Command timeout after " ++ toString timeoutSecs ++ " seconds")) := by
  have hout : (runLines consumed).output_parts = lineTexts consumed := by
    simpa using foldl_stepLine_output consumed {}
  refine ⟨⟨rfl, rfl, rfl⟩, ⟨rfl, ?_, rfl⟩⟩
  simp [execute_streaming, hout]

/-- C8: a syntactically invalid line in the stream is skipped without any
effect on the result: for a clean exit, a run on a stream with a bad line
inserted returns exactly the same response as on the stream without it (for
both `execute` and `execute_streaming`), and for one invalid line between
two valid assistant text events the final output is the (stripped)
concatenation of the two texts. -/
theorem claim8_malformed_line_resilience (timeoutSecs : Nat)
    (pre post : List Line) (raw stderr : String) (rc : Int) (t1 t2 : String) :
    (execute timeoutSecs (.completed 0 (pre ++ Line.bad raw :: post) stderr) =
      execute timeoutSecs (.completed 0 (pre ++ post) stderr)) ∧
    (execute_streaming timeoutSecs
        (.completed (pre ++ Line.bad raw :: post) rc stderr) =
      execute_streaming timeoutSecs (.completed (pre ++ post) rc stderr)) ∧
    ((execute timeoutSecs (.completed 0
        [.ok (.assistant [.text (some t1)]), .bad raw,
         .ok (.assistant [.text (some t2)])] stderr)).output =
      pyStrip (t1 ++ t2)) := by
  have hrun : runLines (pre ++ Line.bad raw :: post) = runLines (pre ++ post) := by
    simp [runLines, List.foldl_append, stepLine]
  refine ⟨?_, ?_, ?_⟩
  · simp [execute, parse_stream_json, hrun]
  · simp [execute_streaming, hrun]
  · simp [execute, parse_stream_json, runLines, stepLine, stepEvent, stepBlock,
      String.join]

/-- C4 (counterexample): the stream whose `tool_use` blocks name `"b"` and
then `"a"` has first-seen order `["b", "a"]`, but the returned `tools_used`
list — an enumeration of the unordered Python set — is not that list (here
the canonical enumeration gives `["a", "b"]`). -/
theorem claim4_counterexample :
    firstSeenTools
        [.ok (.assistant [.toolUse (some "b")]),
         .ok (.assistant [.toolUse (some "a")])] = ["b", "a"] ∧
    (execute 3600 (.completed 0
        [.ok (.assistant [.toolUse (some "b")]),
         .ok (.assistant [.toolUse (some "a")])] "")).tools_used ≠
      ["b", "a"] ∧
    (execute 3600 (.completed 0
        [.ok (.assistant [.toolUse (some "b")]),
         .ok (.assistant [.toolUse (some "a")])] "")).tools_used = ["a", "b"] := by
  refine ⟨by decide, by decide, by decide⟩

/-- C4 (amended): `tools_used` enumerates exactly the distinct tool names
seen among the stream's `tool_use` blocks, each exactly once — but in the
order of the unordered Python set, which depends only on the member set and
not on first-seen order; streams whose first-seen orders are permutations
of one another yield the same `tools_used` list. -/
theorem claim4_tools_set (timeoutSecs : Nat) (lines lines2 : List Line)
    (stderr stderr2 : String) :
    ((∀ n, n ∈ (execute timeoutSecs (.completed 0 lines stderr)).tools_used ↔
        n ∈ firstSeenTools lines) ∧
      (execute timeoutSecs (.completed 0 lines stderr)).tools_used.Nodup) ∧
    ((firstSeenTools lines).Perm (firstSeenTools lines2) →
      (execute timeoutSecs (.completed 0 lines stderr)).tools_used =
        (execute timeoutSecs (.completed 0 lines2 stderr2)).tools_used) := by
  have key : ∀ (ls : List Line) (sd : String),
      (execute timeoutSecs (.completed 0 ls sd)).tools_used =
        pySetToList (firstSeenTools ls) := by
    intro ls sd
    have h : (runLines ls).toolsSeen = firstSeenTools ls := by
      have := foldl_stepLine_tools ls {}
      simpa [runLines, firstSeenTools] using this
    simp [execute, parse_stream_json, h]
  refine ⟨⟨?_, ?_⟩, ?_⟩
  · intro n
    rw [key]
    exact pySetToList_mem _ n
  · rw [key]
    exact pySetToList_nodup _
  · intro hperm
    rw [key, key]
    exact pySetToList_perm_invariant _ _ hperm

/-- C4 (witness): two streams naming the tools `"x"`, `"y"` in opposite
orders have permuted first-seen lists and receive the same `tools_used`. -/
theorem claim4_tools_set_witness :
    (firstSeenTools [.ok (.assistant [.toolUse (some "x")]),
        .ok (.assistant [.toolUse (some "y")])]).Perm
      (firstSeenTools [.ok (.assistant [.toolUse (some "y")]),
        .ok (.assistant [.toolUse (some "x")])]) ∧
    (execute 3600 (.completed 0 [.ok (.assistant [.toolUse (some "x")]),
        .ok (.assistant [.toolUse (some "y")])] "")).tools_used =
      (execute 3600 (.completed 0 [.ok (.assistant [.toolUse (some "y")]),
        .ok (.assistant [.toolUse (some "x")])] "")).tools_used :=
  ⟨by decide, (claim4_tools_set 3600 _ _ "" "").2 (by decide)⟩

/-- C5 (counterexample): with two `system`/`init` events carrying session
ids `"s1"` then `"s2"` (and models `"m1"` then `"m2"`), the recorded
session id and model are those of the **second** event, not the first. -/
theorem claim5_counterexample :
    (parse_stream_json 0
        [.ok (.system (some "init") (some "s1") (some "m1")),
         .ok (.system (some "init") (some "s2") (some "m2"))] "").session_id ≠
      some "s1" ∧
    (parse_stream_json 0
        [.ok (.system (some "init") (some "s1") (some "m1")),
         .ok (.system (some "init") (some "s2") (some "m2"))] "").model ≠
      some "m1" ∧
    (parse_stream_json 0
        [.ok (.system (some "init") (some "s1") (some "m1")),
         .ok (.system (some "init") (some "s2") (some "m2"))] "").session_id =
      some "s2" ∧
    (parse_stream_json 0
        [.ok (.system (some "init") (some "s1") (some "m1")),
         .ok (.system (some "init") (some "s2") (some "m2"))] "").model =
      some "m2" := by
  refine ⟨by decide, by decide, by decide, by decide⟩

/-- C5 (amended): when a stream contains several `system`/`init` events, the
recorded model is the one carried by the **last** such event, and so is the
recorded session id whenever that event carries a non-empty one (a later
`result` event is used as session-id fallback only when the value recorded
so far is empty or absent); the first occurrence does not win. -/
theorem claim5_last_init_wins (pre post : List Line) (sid m : Option String)
    (stderr : String) (hpost : post.all (fun l => !isInitLine l)) :
    (parse_stream_json 0
        (pre ++ Line.ok (.system (some "init") sid m) :: post) stderr).model
      = m ∧
    (pyTruthy sid = true →
      (parse_stream_json 0
        (pre ++ Line.ok (.system (some "init") sid m) :: post)
        stderr).session_id = sid) := by
  have hfold : runLines (pre ++ Line.ok (.system (some "init") sid m) :: post)
      = post.foldl stepLine
          (stepEvent (runLines pre) (.system (some "init") sid m)) := by
    simp [runLines, List.foldl_append, stepLine]
  have hsess : (stepEvent (runLines pre)
      (.system (some "init") sid m)).session_id = sid := by
    simp [stepEvent]
  have hmodel : (stepEvent (runLines pre)
      (.system (some "init") sid m)).model = m := by
    simp [stepEvent]
  have hpres := foldl_stepLine_no_init post
    (stepEvent (runLines pre) (.system (some "init") sid m)) hpost
  have hm : (runLines
      (pre ++ Line.ok (.system (some "init") sid m) :: post)).model = m := by
    rw [hfold, hpres.1, hmodel]
  have hs : pyTruthy sid = true →
      (runLines
        (pre ++ Line.ok (.system (some "init") sid m) :: post)).session_id
        = sid := by
    intro ht
    rw [hfold, hpres.2 (by rw [hsess]; exact ht), hsess]
  constructor
  · simpa [parse_stream_json] using hm
  · intro ht
    simpa [parse_stream_json] using hs ht

/-- C5 (witness): a stream with inits `("s8", "m8")` then `("s9", "m9")`
records the last pair. -/
theorem claim5_last_init_wins_witness :
    ([] : List Line).all (fun l => !isInitLine l) = true ∧
    pyTruthy (some "s9") = true ∧
    (parse_stream_json 0
        ([Line.ok (.system (some "init") (some "s8") (some "m8"))] ++
          Line.ok (.system (some "init") (some "s9") (some "m9")) :: [])
        "").model = some "m9" ∧
    (parse_stream_json 0
        ([Line.ok (.system (some "init") (some "s8") (some "m8"))] ++
          Line.ok (.system (some "init") (some "s9") (some "m9")) :: [])
        "").session_id = some "s9" :=
  ⟨by decide, by decide,
   (claim5_last_init_wins
     [Line.ok (.system (some "init") (some "s8") (some "m8"))] []
     (some "s9") (some "m9") "" (by decide)).1,
   (claim5_last_init_wins
     [Line.ok (.system (some "init") (some "s8") (some "m8"))] []
     (some "s9") (some "m9") "" (by decide)).2 (by decide)⟩

/-- C6 (counterexample): a streaming run that exits cleanly with an `init`
session id but no output and no tools has `success = false`, yet
`handle_text` still writes the executor-assigned session id into the user's
stored context — the write-back is not restricted to successful runs. -/
theorem claim6_counterexample :
    (execute_streaming 3600
      (.completed [.ok (.system (some "init") (some "sess-1") (some "mod"))]
        0 "")).success = false ∧
    (store_session_after_run
        (execute_streaming 3600
          (.completed
            [.ok (.system (some "init") (some "sess-1") (some "mod"))] 0 ""))
        (initialize_user_data "t0" emptyUserData)).claude_session_id =
      some (some "sess-1") ∧
    (initialize_user_data "t0" emptyUserData).claude_session_id ≠
      some (some "sess-1") := by
  refine ⟨by decide, by decide, by decide⟩

/-- C6 (amended): `get_or_create_session_id` returns the stored identifier
(possibly none) unchanged and never invents one, and `increment_turn_count`
increases the turn counter by exactly one; but the executor-assigned session
id is written back into the stored context whenever the run's result carries
a non-empty session id, regardless of `success` — also after failed runs. -/
theorem claim6_session_resolution (now : String) (ud : UserData)
    (resp : ClaudeResponse) :
    ((get_or_create_session_id now ud).2 = ud.claude_session_id.join ∧
     (get_or_create_session_id now ud).1.claude_session_id =
       some ud.claude_session_id.join) ∧
    (ud.claude_session_id.isSome = true →
      ((increment_turn_count now ud).2 = ud.turn_count + 1 ∧
       (increment_turn_count now ud).1.turn_count = ud.turn_count + 1)) ∧
    ((store_session_after_run resp ud).claude_session_id =
      if pyTruthy resp.session_id then some resp.session_id
      else ud.claude_session_id) := by
  refine ⟨⟨?_, ?_⟩, ?_, ?_⟩
  · cases h : ud.claude_session_id <;>
      simp [get_or_create_session_id, initialize_user_data, h]
  · cases h : ud.claude_session_id <;>
      simp [get_or_create_session_id, initialize_user_data, h]
  · intro hs
    cases h : ud.claude_session_id with
    | none => rw [h] at hs; simp at hs
    | some v =>
        constructor <;> simp [increment_turn_count, initialize_user_data, h]
  · by_cases ht : pyTruthy resp.session_id <;>
      simp [store_session_after_run, ht]

/-- C6 (witness): a user with a stored session and four turns gets turn
five from `increment_turn_count`. -/
theorem claim6_session_resolution_witness :
    exampleTurnUser.claude_session_id.isSome = true ∧
    (increment_turn_count "t1" exampleTurnUser).1.turn_count =
      exampleTurnUser.turn_count + 1 :=
  ⟨by decide,
   ((claim6_session_resolution "t1" exampleTurnUser
      { success := false, output := "" }).2.1 (by decide)).2⟩

/-- C2: once a pending change has been decided by an approve or reject
callback, any second approve or reject callback — same or different
outcome — reports that there is no pending change, creates no commit,
appends no history entry, and leaves the stored user state unchanged. -/
theorem claim2_decision_idempotent (ud : UserData) (pc : PendingChange)
    (g g2 : GitEnv) (now now2 : String) (a a2 : String)
    (hpc : ud.pending_change = some pc)
    (hst : pc.state = some CHANGE_STATE_PENDING)
    (ha : a = "approve" ∨ a = "reject")
    (ha2 : a2 = "approve" ∨ a2 = "reject") :
    handle_action a2 (handle_action a ud g now).1 g2 now2 =
      ((handle_action a ud g now).1,
        { commits := [], reply := .noPendingChanges }) := by
  have hnone : (handle_action a ud g now).1.pending_change = none := by
    rcases ha with h | h <;> subst h <;>
      simp [handle_action, hpc, hst]
  obtain ⟨ud1, hud1⟩ : ∃ u, (handle_action a ud g now).1 = u := ⟨_, rfl⟩
  rw [hud1] at hnone ⊢
  rcases ha2 with h | h <;> subst h <;>
    simp [handle_action, hnone]

/-- C2 (witness): approve then reject on one pending change. -/
theorem claim2_decision_idempotent_witness :
    exampleUser2.pending_change = some examplePending2 ∧
    examplePending2.state = some CHANGE_STATE_PENDING ∧
    handle_action "reject"
        (handle_action "approve" exampleUser2 exampleGitEnv "t1").1
        exampleGitEnv "t2" =
      ((handle_action "approve" exampleUser2 exampleGitEnv "t1").1,
        { commits := [], reply := .noPendingChanges }) :=
  ⟨rfl, rfl,
   claim2_decision_idempotent exampleUser2 examplePending2 exampleGitEnv
     exampleGitEnv "t1" "t2" "approve" "reject" rfl rfl (.inl rfl)
     (.inr rfl)⟩

/-! ### History-bound lemmas (C9) -/

theorem appendHistory_length (h : Option (List HistoryEntry))
    (e : HistoryEntry) :
    (appendHistory h e).length = min ((h.getD []).length + 1) 20 := by
  unfold appendHistory pyLastN
  by_cases hl : ((h.getD []) ++ [e]).length > 20
  · rw [if_pos hl]
    simp only [List.length_drop, List.length_append, List.length_cons,
      List.length_nil] at hl ⊢
    omega
  · rw [if_neg hl]
    simp only [List.length_append, List.length_cons, List.length_nil] at hl ⊢
    omega

theorem appendHistory_getLast (h : Option (List HistoryEntry))
    (e : HistoryEntry) :
    (appendHistory h e).getLast? = some e := by
  unfold appendHistory pyLastN
  by_cases hl : ((h.getD []) ++ [e]).length > 20
  · rw [if_pos hl]
    have hk : ((h.getD []) ++ [e]).length - 20 ≤ (h.getD []).length := by
      simp only [List.length_append, List.length_cons, List.length_nil]
      omega
    rw [List.drop_append_of_le_length hk]
    simp
  · rw [if_neg hl]
    simp

theorem applyDecision_history (ud : UserData) (s : DecisionStep)
    (ha : s.action = "approve" ∨ s.action = "reject") :
    (applyDecision ud s).approval_history =
      some (appendHistory ud.approval_history (entryOfStep s)) := by
  rcases ha with h | h <;>
    simp [applyDecision, propose_pending_change, handle_action, h,
      entryOfStep]

theorem runDecisions_length (steps : List DecisionStep) :
    ∀ ud : UserData,
      (∀ s ∈ steps, s.action = "approve" ∨ s.action = "reject") →
      (ud.approval_history.getD []).length ≤ 20 →
      ((steps.foldl applyDecision ud).approval_history.getD []).length =
        min ((ud.approval_history.getD []).length + steps.length) 20 := by
  induction steps with
  | nil =>
      intro ud _ hle
      simp only [List.foldl_nil, List.length_nil]
      omega
  | cons s rest ih =>
      intro ud hall hle
      have hs := hall s (List.mem_cons_self ..)
      have h1 := applyDecision_history ud s hs
      have hlen1 : ((applyDecision ud s).approval_history.getD []).length =
          min ((ud.approval_history.getD []).length + 1) 20 := by
        rw [h1]
        simpa using appendHistory_length _ _
      have hrec := ih (applyDecision ud s)
        (fun s2 h2 => hall s2 (List.mem_cons_of_mem _ h2))
        (by rw [hlen1]; omega)
      simp only [List.foldl_cons, List.length_cons]
      rw [hrec, hlen1]
      omega

theorem runDecisions_getLast (steps : List DecisionStep) :
    ∀ (ud : UserData) (s : DecisionStep),
      (∀ s2 ∈ steps, s2.action = "approve" ∨ s2.action = "reject") →
      steps.getLast? = some s →
      ((steps.foldl applyDecision ud).approval_history.getD []).getLast? =
        some (entryOfStep s) := by
  induction steps with
  | nil => intro ud s _ hlast; simp at hlast
  | cons s0 rest ih =>
      intro ud s hall hlast
      cases rest with
      | nil =>
          simp only [List.getLast?_singleton, Option.some_inj] at hlast
          subst hlast
          simp only [List.foldl_cons, List.foldl_nil]
          rw [applyDecision_history ud s0 (hall s0 (by simp))]
          simpa using appendHistory_getLast _ _
      | cons s1 rest1 =>
          rw [List.getLast?_cons_cons] at hlast
          simp only [List.foldl_cons] at ih ⊢
          exact ih (applyDecision ud s0) s
            (fun s2 h2 => hall s2 (List.mem_cons_of_mem _ h2)) hlast

/-- C9: starting from a fresh user, after any sequence of propose-then-decide
rounds the approval history holds `min n 20` entries (so never more than
20), ordered most-recent-last: its last element is the entry of the most
recent decision; in particular after 25 decisions its length is exactly
20. -/
theorem claim9_history_bound (steps : List DecisionStep)
    (hall : ∀ s ∈ steps, s.action = "approve" ∨ s.action = "reject") :
    (((steps.foldl applyDecision emptyUserData).approval_history.getD
        []).length = min steps.length 20) ∧
    (∀ s, steps.getLast? = some s →
      ((steps.foldl applyDecision emptyUserData).approval_history.getD
          []).getLast? = some (entryOfStep s)) := by
  constructor
  · have := runDecisions_length steps emptyUserData hall
      (by simp [emptyUserData])
    simpa [emptyUserData] using this
  · intro s hlast
    exact runDecisions_getLast steps emptyUserData s hall hlast

/-- C9 (witness): 25 identical approve rounds leave exactly 20 entries. -/
theorem claim9_history_bound_witness :
    (∀ s ∈ List.replicate 25 exampleStep9,
      s.action = "approve" ∨ s.action = "reject") ∧
    (((List.replicate 25 exampleStep9).foldl applyDecision
        emptyUserData).approval_history.getD []).length =
      min (List.replicate 25 exampleStep9).length 20 :=
  ⟨by decide, (claim9_history_bound _ (by decide)).1⟩

/-- C10: the `/clear` command without a pending change, and the clear-confirm
callback on any state — in particular on one holding a pending change, the
only way the callback is reached — set the stored session id to `None`, the
turn counter to `0` and the pending change to `None`, and leave every other
field of the user's stored context unchanged: `approval_history`,
`github_repo` and `repo_path` are preserved. -/
theorem claim10_clear_frame (ud ud2 : UserData)
    (hnp : ud.pending_change = none) :
    ClearSpec ud (handle_clear true ud).1 ∧
    ClearSpec ud2 (handle_clear_callback "confirm" ud2) := by
  constructor
  · simp [handle_clear, clearSession, ClearSpec, hnp]
  · simp [handle_clear_callback, clearSession, ClearSpec]

/-- C10 (witness): the `/clear` command clears the populated context without
a pending change, and the clear-confirm callback clears the same context
holding a pending change; both reset exactly the three session keys. -/
theorem claim10_clear_frame_witness :
    exampleUser10.pending_change = none ∧
    ClearSpec exampleUser10 (handle_clear true exampleUser10).1 ∧
    ClearSpec exampleUser10b (handle_clear_callback "confirm" exampleUser10b) :=
  ⟨rfl, (claim10_clear_frame exampleUser10 exampleUser10b rfl).1,
   (claim10_clear_frame exampleUser10 exampleUser10b rfl).2⟩

/-- C7 (code bug): on `fenceSplitInput` — a single fenced block of
`34 - 20 = 14` characters, shorter than the length limit 30 — the formatter
splits **inside** the block at its interior blank line, because the
fence-aware branch of `_find_split_point` only fires when the block ends
within `max_length`: both emitted units contain exactly one fence marker
(an odd count, so an unterminated fence), and no unit contains the whole
block, contradicting the claim and the code's own "don't split inside
them" comment. -/
theorem claim7_fence_split_bug :
    fencePairs fenceSplitInput.toList = [(20, 34)] ∧
    34 - 20 < 30 ∧
    format_response 30 false fenceSplitInput = some
      [{ text := "aaaaaaaa\n\nbbbbbbbb\n\n```\nxx\n\n_(...continued)_",
         parse_mode := "Markdown", has_code := true },
       { text := "_(...continued)_\n\nyy\n```",
         parse_mode := "Markdown", has_code := true }] ∧
    (format_response 30 false fenceSplitInput).map
        (fun msgs => msgs.map (fun m => fenceCount m.text)) = some [1, 1] := by
  refine ⟨by decide, by decide, by decide, by decide⟩

end ClaudeRemote